import Mathlib

/-!
Shallow embedding of `src/neuralngen/training/loss.py` (class `ngenLoss`).

Conventions used throughout:

* Tensor scalars are exact rationals `ℚ`.  On the `forward` path, where
  missing values matter, a scalar is `Val := Option ℚ` with `none` playing
  the role of IEEE NaN (NaN-propagating arithmetic, NaN-producing empty
  mean, exactly as the tensor library behaves on these operations).
* Rank-3 tensors `[B, T, D]` are nested lists (`Tensor3`).  The `forward`
  path only performs elementwise operations and fully pooled reductions,
  so its arrays are modelled in flattened form as `List Val`; positions
  correspond across `y_hat`, `y` and the mask.
* `random.uniform(*quantile_bounds)` draws are passed as explicit
  arguments (`draw`), making the ambient randomness visible.
* Python-level behaviour that the source depends on is modelled
  explicitly: attribute lookup on the instance (`ngenLossAttrs`) and
  call-argument binding of `def` parameters (`pyBindCall`).
-/

namespace Ngen

/-- A floating-point scalar: `none` is NaN, `some q` an ordinary number. -/
abbrev Val : Type := Option ℚ

/-- Python exceptions raised by the embedded code. -/
inductive PyError where
  | attributeError : String → PyError
  | typeError : String → PyError
  | valueError : String → PyError
deriving DecidableEq

/-- The `ngenLoss` module configuration stored by `__init__`
(loss.py lines 27-39): `distance_matrix`, `variogram_weight`,
`fdc_weight`, `v_order`. -/
structure ngenLoss where
  distance_matrix : Option (List (List ℚ)) := none
  variogram_weight : ℚ := 0
  fdc_weight : ℚ := 0
  v_order : ℕ := 2
deriving DecidableEq

/-- `mask = ~torch.isnan(y)` (loss.py line 64): true where the
observation is a number. -/
def maskOf (y : List Val) : List Bool := y.map Option.isSome

/-- `torch.where(mask, x, torch.zeros_like(x))` (loss.py lines 65-66):
keep `x` where the mask is true, substitute 0 elsewhere. -/
def whereMask (m : List Bool) (x : List Val) : List Val :=
  List.zipWith (fun b v => if b then v else some 0) m x

/-- Boolean-mask indexing `x[mask]`: the entries of `x` at mask-true
positions, in order. -/
def boolSelect {α : Type} (m : List Bool) (x : List α) : List α :=
  (m.zip x).filterMap (fun p => if p.1 then some p.2 else none)

/-- NaN-propagating subtraction on scalars. -/
def vSub : Val → Val → Val
  | some a, some b => some (a - b)
  | _, _ => none

/-- NaN-propagating multiplication on scalars. -/
def vMul : Val → Val → Val
  | some a, some b => some (a * b)
  | _, _ => none

/-- One squared error `(a - b)^2`, NaN-propagating. -/
def sqErr (a b : Val) : Val := vMul (vSub a b) (vSub a b)

/-- Tensor `.mean()`: NaN when the tensor is empty (0/0) or when any
entry is NaN, otherwise the exact arithmetic mean. -/
def vMean (l : List Val) : Val :=
  if l.any Option.isNone then none
  else if l.isEmpty then none
  else some ((l.filterMap id).sum / (l.length : ℚ))

/-- `F.mse_loss(input, target)`: mean of elementwise squared errors
(loss.py line 69). -/
def mse_loss (input target : List Val) : Val :=
  vMean (List.zipWith sqErr input target)

/-- The attribute names an `ngenLoss` instance actually has: the four
fields set in `__init__` plus the methods of the class body.  Neither
`_variogram_loss` nor `_fdc_loss` (the names `forward` calls at
loss.py lines 75 and 80) is among them, so those attribute lookups
raise `AttributeError`. -/
def ngenLossAttrs : List String :=
  ["distance_matrix", "variogram_weight", "fdc_weight", "v_order",
   "forward", "variogram_loss", "fdc_loss", "var_hyd_char"]

/-- Lines 68-86 of `forward`, after the masking step: compute
`mse_loss` on the mask-selected entries, then conditionally add the
auxiliary terms.  The auxiliary branches call `self._variogram_loss`
resp. `self._fdc_loss`, attributes that do not exist on the instance
(see `ngenLossAttrs`; the methods are named `variogram_loss` and
`fdc_loss`), so reaching either branch raises `AttributeError`.
Otherwise the result is the pair `(loss, losses)` with the dict's
insertion order `mse_loss`, `total_loss`. -/
def forwardMasked (cfg : ngenLoss) (y_hat y : List Val) (mask : List Bool) :
    Except PyError (Val × List (String × Val)) :=
  let mse := mse_loss (boolSelect mask y_hat) (boolSelect mask y)
  if 0 < cfg.variogram_weight then
    Except.error (PyError.attributeError "_variogram_loss")
  else if 0 < cfg.fdc_weight then
    Except.error (PyError.attributeError "_fdc_loss")
  else
    Except.ok (mse, [("mse_loss", mse), ("total_loss", mse)])

/-- `ngenLoss.forward` (loss.py lines 41-86): extract `y_hat` and `y`,
derive the validity mask from `y` alone, zero-substitute both arrays at
mask-false positions, and continue with `forwardMasked`. -/
def forward (cfg : ngenLoss) (prediction data : List Val) :
    Except PyError (Val × List (String × Val)) :=
  let mask := maskOf data
  forwardMasked cfg (whereMask mask prediction) (whereMask mask data) mask

/-! ### The hydrograph characteristic reducer `var_hyd_char` -/

/-- A rank-3 tensor `[B, T, D]` as nested lists: batch, time, site. -/
abbrev Tensor3 : Type := List (List (List ℚ))

/-- `ts.shape[1]`, the length of the time axis. -/
def shape1 (ts : Tensor3) : ℕ := (ts.headD []).length

/-- Descending sort, as in `sort(descending=True)`. -/
def sortDesc (l : List ℚ) : List ℚ := List.insertionSort (fun a b => b ≤ a) l

/-- Ascending sort. -/
def sortAsc (l : List ℚ) : List ℚ := List.insertionSort (fun a b => a ≤ b) l

/-- The columns of a `[T, D]` matrix: for each site index `d`, the time
series `[row[d] for row in mat]`.  Reductions with `dim=1` act on these
columns independently. -/
def colsOf (mat : List (List ℚ)) : List (List ℚ) :=
  (List.range (mat.headD []).length).map (fun d => mat.map (fun row => row.getD d 0))

/-- Python `int(x)` on a float: truncation toward zero. -/
def pyInt (x : ℚ) : ℤ := if 0 ≤ x then ⌊x⌋ else -⌊-x⌋

/-- `index = max(0, min(index, ts.shape[1] - 1))` (loss.py line 191). -/
def clampIdx (i : ℤ) (T : ℕ) : ℕ := (max 0 (min i ((T : ℤ) - 1))).toNat

/-- `index = int(quantile * ts.shape[1])` followed by the clamp
(loss.py lines 190-191). -/
def quantileIndex (q : ℚ) (T : ℕ) : ℕ := clampIdx (pyInt (q * (T : ℚ))) T

/-- The `method == "quantile"` branch of `var_hyd_char`
(loss.py lines 186-192): sort each `(b, d)` time series descending and
take the entry at `quantileIndex q T`.  Result shape `[B, D]`. -/
def quantileDim1 (ts : Tensor3) (q : ℚ) : List (List ℚ) :=
  ts.map (fun mat =>
    (colsOf mat).map (fun col => (sortDesc col).getD (quantileIndex q (shape1 ts)) 0))

/-- Arithmetic mean of a list of rationals (`ts.mean(dim=1)` per column). -/
def meanList (l : List ℚ) : ℚ := l.sum / (l.length : ℚ)

/-- `ts.median(dim=1).values` per column: the lower middle element of
the sorted series (the library convention for even lengths). -/
def medianLow (l : List ℚ) : ℚ := (sortAsc l).getD ((l.length - 1) / 2) 0

/-- The unbiased sample variance used by `ts.std(dim=1)` (Bessel
correction; a length-1 series divides by zero, which the library turns
into NaN and the model into 0 — no claim touches that case). -/
def sampleVar (l : List ℚ) : ℚ :=
  (l.map (fun x => (x - meanList l) ^ 2)).sum / ((l.length - 1 : ℕ) : ℚ)

/-- The value of one reduced entry.  `std` produces the square root of
the sample variance, which has no exact rational representative, so it
is carried symbolically: `sqrtOf v` denotes the real square root of
`v`.  All other branches produce exact rationals `rat q`. -/
inductive RedVal where
  | rat : ℚ → RedVal
  | sqrtOf : ℚ → RedVal
deriving DecidableEq

/-- `var_hyd_char` (loss.py lines 144-195): dispatch on the `method`
tag; the quantile level actually used is the `random.uniform` draw when
`random_quantile` is set (loss.py lines 187-188), the `quantile`
argument otherwise.  An unknown tag raises
`ValueError(f"Unknown method for hydrograph characteristic: {method}")`. -/
def var_hyd_char (ts : Tensor3) (method : String) (quantile : ℚ)
    (random_quantile : Bool) (draw : ℚ) : Except PyError (List (List RedVal)) :=
  if method = "mean" then
    Except.ok (ts.map (fun mat => (colsOf mat).map (fun c => RedVal.rat (meanList c))))
  else if method = "median" then
    Except.ok (ts.map (fun mat => (colsOf mat).map (fun c => RedVal.rat (medianLow c))))
  else if method = "std" then
    Except.ok (ts.map (fun mat => (colsOf mat).map (fun c => RedVal.sqrtOf (sampleVar c))))
  else if method = "quantile" then
    Except.ok ((quantileDim1 ts (if random_quantile then draw else quantile)).map
      (fun row => row.map RedVal.rat))
  else
    Except.error (PyError.valueError
      ("Unknown method for hydrograph characteristic: " ++ method))

/-- Modelled from the spec (§4.4, the sentence under test in C4):
"sorts descending along T, picks index clamp(round(quantile × T), 0,
T−1)" — the *rounding* index formula the spec claims. -/
def specQuantileRound (ts : Tensor3) (q : ℚ) : List (List ℚ) :=
  ts.map (fun mat => (colsOf mat).map (fun col =>
    (sortDesc col).getD
      ((max 0 (min (round (q * (shape1 ts : ℚ))) ((shape1 ts : ℤ) - 1))).toNat) 0))

/-- The spec's index formula amended to what the code computes:
`clamp(⌊quantile × T⌋, 0, T−1)` — truncation (floor, since the level is
non-negative), not rounding. -/
def specQuantileFloor (ts : Tensor3) (q : ℚ) : List (List ℚ) :=
  ts.map (fun mat => (colsOf mat).map (fun col =>
    (sortDesc col).getD
      ((max 0 (min ⌊q * (shape1 ts : ℚ)⌋ ((shape1 ts : ℤ) - 1))).toNat) 0))

/-! ### The FDC divergence term -/

/-- `.mean()` of a 2-D tensor: the sum of all entries over their count. -/
def matMean (m : List (List ℚ)) : ℚ :=
  (m.map List.sum).sum / (((m.map List.length).sum : ℕ) : ℚ)

/-- `fdc_loss` (loss.py lines 112-142).  The full-shape arrays are
flattened `List ℚ` (the term pools sites and time anyway); `mask` is
the shared validity mask. -/
def fdc_loss (y_hat y : List ℚ) (mask : List Bool) : ℚ :=
  let y_hat_flat := boolSelect mask y_hat
  let y_flat := boolSelect mask y
  if y_flat.isEmpty then 0
  else
    let y_hat_sorted := sortDesc y_hat_flat
    let y_sorted := sortDesc y_flat
    let min_len := min y_sorted.length y_hat_sorted.length
    let yh := y_hat_sorted.take min_len
    let ys := y_sorted.take min_len
    let cross_var := matMean (ys.map (fun a => yh.map (fun b => |a - b|)))
    let within_y := matMean (ys.map (fun a => ys.map (fun b => |a - b|)))
    let within_hat := matMean (yh.map (fun a => yh.map (fun b => |a - b|)))
    max 0 (cross_var - (1 / 2) * (within_y + within_hat))

/-! ### Python call-argument binding -/

/-- Binding of a Python call against a `def`'s parameter list: the
positional arguments fill the leading parameters in order, then each
keyword argument must name a parameter that is not already filled
(otherwise `TypeError: got multiple values for argument ...`) and that
exists (otherwise an unexpected-keyword `TypeError`).  Defaults make
every still-unfilled parameter optional, so no missing-argument check
is needed for the calls modelled here. -/
def pyBindCall {V : Type} (params : List String) (args : List V)
    (kwargs : List (String × V)) : Except String (List (String × V)) :=
  if params.length < args.length then
    Except.error "TypeError: too many positional arguments"
  else
    kwargs.foldlM
      (fun acc kv =>
        if (acc.map Prod.fst).contains kv.1 then
          Except.error ("TypeError: got multiple values for argument " ++ kv.1)
        else if params.contains kv.1 then
          Except.ok (acc ++ [kv])
        else
          Except.error ("TypeError: unexpected keyword argument " ++ kv.1))
      ((params.take args.length).zip args)

/-- The parameter list of `var_hyd_char` as declared at loss.py
lines 144-150: there is no `self` parameter, so `ts` is first. -/
def varHydCharParams : List String :=
  ["ts", "method", "quantile", "random_quantile", "quantile_bounds"]

/-- The bound-method call
`self.var_hyd_char(y_hat, method=method, random_quantile=True)` at
loss.py line 95 (and identically at line 97): the instance is passed
as the first positional argument, the tensor as the second. -/
def varHydCharCall {V : Type} (self y_hat method_arg rq_arg : V) :
    Except String (List (String × V)) :=
  pyBindCall varHydCharParams [self, y_hat]
    [("method", method_arg), ("random_quantile", rq_arg)]

/-! ### The variogram term -/

/-- A Python value as passed at the call site modelled below: the
module instance, a tensor, a string or a boolean.  `pyBindCall` never
inspects argument values (binding depends only on arity and keyword
names); they are carried so the embedded call states exactly what
loss.py line 95 passes. -/
inductive PyArg where
  | inst : ngenLoss → PyArg
  | tensor : Tensor3 → PyArg
  | str : String → PyArg
  | bool : Bool → PyArg

/-- `variogram_loss` (loss.py lines 88-110).  Its first statement
(line 95) is the bound call
`self.var_hyd_char(y_hat, method=method, random_quantile=True)` with
`method = "quantile"` (line 94).  The binding of that call fails:
`var_hyd_char` has no `self` parameter, so the instance binds to `ts`,
the tensor binds positionally to `method`, and the `method=` keyword
supplies a second value for it.  The resulting `TypeError` propagates
before any of the remaining body (the second reduction at line 97, the
pairwise difference matrices, the optional distance weighting and the
mean at lines 100-110) is computed, so the method never produces a
number.  The `Except.ok` branch of the binding is provably unreachable. -/
def variogram_loss (cfg : ngenLoss) (y_hat y : Tensor3) (mask : List Bool) :
    Except PyError ℚ :=
  match h : varHydCharCall (PyArg.inst cfg) (PyArg.tensor y_hat)
      (PyArg.str "quantile") (PyArg.bool true) with
  | Except.error e => Except.error (PyError.typeError e)
  | Except.ok _ => nomatch h

/-! ### Concrete fixtures -/

/-- `[B=1, T=10, D=1]` tensor whose single time series is `0..9`. -/
def ts4 : Tensor3 := [[[0],[1],[2],[3],[4],[5],[6],[7],[8],[9]]]

/-- `[B=2, T=2, D=1]` tensor: site 0 has series `[0, 10]`, site 1 `[0, 0]`. -/
def yPair : Tensor3 := [[[0],[10]], [[0],[0]]]

/-- The descending order used by `sortDesc` is total, transitive and
antisymmetric on `ℚ` (facts the sortedness lemmas need). -/
instance : IsTotal ℚ (fun a b => b ≤ a) := ⟨fun a b => le_total b a⟩

instance : IsTrans ℚ (fun a b => b ≤ a) := ⟨fun _ _ _ h1 h2 => le_trans h2 h1⟩

instance : IsAntisymm ℚ (fun a b => b ≤ a) := ⟨fun _ _ h1 h2 => le_antisymm h2 h1⟩

/-! ### Helper lemmas about masking and selection -/

theorem boolSelect_nil_mask {α : Type} (x : List α) : boolSelect [] x = [] := rfl

theorem boolSelect_nil {α : Type} (m : List Bool) : boolSelect m ([] : List α) = [] := by
  cases m <;> rfl

theorem boolSelect_cons {α : Type} (b : Bool) (m : List Bool) (x : α) (xs : List α) :
    boolSelect (b :: m) (x :: xs) = if b then x :: boolSelect m xs else boolSelect m xs := by
  by_cases hb : b <;> simp [boolSelect, hb, List.filterMap_cons]

theorem zipWith_boolSelect (f : Val → Val → Val) :
    ∀ (m : List Bool) (A B : List Val),
      List.zipWith f (boolSelect m A) (boolSelect m B) = boolSelect m (List.zipWith f A B)
  | [], A, B => by simp [boolSelect_nil_mask]
  | b :: m, [], B => by simp [boolSelect_nil]
  | b :: m, a :: A, [] => by simp [boolSelect_nil]
  | b :: m, a :: A, c :: B => by
    by_cases hb : b <;>
      simp [boolSelect_cons, hb, zipWith_boolSelect f m A B]

theorem vMean_of_mem_none {l : List Val} (h : none ∈ l) : vMean l = none := by
  have ha : l.any Option.isNone = true := List.any_eq_true.mpr ⟨none, h, rfl⟩
  simp [vMean, ha]

theorem maskOf_cons (v : Val) (y : List Val) : maskOf (v :: y) = v.isSome :: maskOf y := rfl

theorem boolSelect_maskOf_eq_nil :
    ∀ (y : List Val), (∀ v ∈ y, v = none) → ∀ (X : List Val), boolSelect (maskOf y) X = []
  | [], _, X => boolSelect_nil_mask X
  | _ :: _, _, [] => boolSelect_nil _
  | v :: y, h, x :: X => by
    have hv : v = none := h v (List.mem_cons_self v y)
    have ih := boolSelect_maskOf_eq_nil y (fun w hw => h w (List.mem_cons_of_mem v hw)) X
    simp [maskOf_cons, hv, boolSelect_cons, ih]

/-- Neither of the attribute names `forward` looks up for the auxiliary
terms exists on an `ngenLoss` instance. -/
theorem aux_attrs_missing :
    "_variogram_loss" ∉ ngenLossAttrs ∧ "_fdc_loss" ∉ ngenLossAttrs := by decide

/-! ### Claim theorems -/

/-- C1: the claim says the loss bundle returned by `forward` contains
`variogram_loss` exactly when `variogram_weight > 0` and that
`total_loss` then incorporates it.  The code cannot do that: with
`variogram_weight = 1` (and a trivially valid input pair) `forward`
raises `AttributeError` on `self._variogram_loss`, because `ngenLoss`
defines `variogram_loss`, not `_variogram_loss` — no bundle is
returned at all.  (The `fdc_weight > 0` branch fails identically on
`_fdc_loss`.)  With both weights zero the returned bundle does behave
as claimed: keys `mse_loss` and `total_loss`, no auxiliary keys, and
`total_loss = mse_loss`. -/
theorem forward_posweight_attribute_error :
    forward { variogram_weight := 1 } [some 1] [some 1] =
      Except.error (PyError.attributeError "_variogram_loss") := rfl

/-- C2 counterexample: the claim says `forward` fails with an explicit
"no valid targets" error when every entry of `y` is NaN.  It does not:
with `y = [NaN]` (weights zero) `forward` returns normally, with
`mse_loss` and `total_loss` both NaN. -/
theorem forward_allnan_counterexample :
    forward {} [some 1] [none] =
      Except.ok (none, [("mse_loss", none), ("total_loss", none)]) := rfl

/-- C2 amended: for every input in which every entry of `y` is NaN and
both auxiliary weights are non-positive (the only configurations in
which `forward` returns at all), `forward` raises no error and silently
returns NaN for `mse_loss` and `total_loss`: the empty-selection mean
is NaN and nothing checks for it. -/
theorem forward_allnan_returns_nan (cfg : ngenLoss) (prediction data : List Val)
    (hv : cfg.variogram_weight ≤ 0) (hf : cfg.fdc_weight ≤ 0)
    (hnan : ∀ v ∈ data, v = none) :
    forward cfg prediction data =
      Except.ok (none, [("mse_loss", none), ("total_loss", none)]) := by
  have h1 : boolSelect (maskOf data) (whereMask (maskOf data) prediction) = [] :=
    boolSelect_maskOf_eq_nil data hnan _
  have h2 : boolSelect (maskOf data) (whereMask (maskOf data) data) = [] :=
    boolSelect_maskOf_eq_nil data hnan _
  simp only [forward, forwardMasked, h1, h2]
  rw [if_neg (not_lt.mpr hv), if_neg (not_lt.mpr hf)]
  rfl

theorem forward_allnan_returns_nan_witness :
    forward { v_order := 4 } [some 3, some 5] [none, none] =
      Except.ok (none, [("mse_loss", none), ("total_loss", none)]) :=
  forward_allnan_returns_nan { v_order := 4 } [some 3, some 5] [none, none]
    le_rfl le_rfl (fun v hv => by
      rcases List.mem_cons.mp hv with h | h
      · exact h
      · simpa using h)

/-- C9: for every instance and all argument values, the bound call
`self.var_hyd_char(y_hat, method=method, random_quantile=True)`
(loss.py line 95; line 97 is identical) fails at argument binding:
`var_hyd_char` has no `self` parameter, so the instance binds to `ts`,
the tensor binds positionally to `method`, and the `method=` keyword
then supplies a second value for an already-bound parameter — a
`TypeError` raised before any reduction of the body is computed, so
`variogram_loss` never returns a value through this call path. -/
theorem var_hyd_char_call_type_error {V : Type} (self y_hat method_arg rq_arg : V) :
    varHydCharCall self y_hat method_arg rq_arg =
      Except.error "TypeError: got multiple values for argument method" := rfl

/-- C8: for every method tag outside mean/median/std/quantile, the
reducer takes the final `else` branch and raises `ValueError`; no
branch computes a partial result and there is no fallback method. -/
theorem var_hyd_char_unknown_method (ts : Tensor3) (method : String) (quantile : ℚ)
    (rq : Bool) (draw : ℚ)
    (h : method ∉ (["mean", "median", "std", "quantile"] : List String)) :
    var_hyd_char ts method quantile rq draw =
      Except.error (PyError.valueError
        ("Unknown method for hydrograph characteristic: " ++ method)) := by
  simp only [List.mem_cons, List.not_mem_nil, or_false, not_or] at h
  obtain ⟨h1, h2, h3, h4⟩ := h
  simp only [var_hyd_char, if_neg h1, if_neg h2, if_neg h3, if_neg h4]

theorem var_hyd_char_unknown_method_witness :
    var_hyd_char [[[1]]] "max" (1/4) false 0 =
      Except.error (PyError.valueError
        "Unknown method for hydrograph characteristic: max") :=
  var_hyd_char_unknown_method [[[1]]] "max" (1/4) false 0 (by decide)

/-- C6: for every input — any flattened masked arrays and any mask,
including an empty selection — the FDC term is non-negative: the empty
case returns 0 and every other case is clamped by `max 0 _`. -/
theorem fdc_loss_nonneg (y_hat y : List ℚ) (mask : List Bool) :
    0 ≤ fdc_loss y_hat y mask ∧ (boolSelect mask y = [] → fdc_loss y_hat y mask = 0) := by
  simp only [fdc_loss]
  by_cases h : (boolSelect mask y).isEmpty
  · simp [h]
  · rw [if_neg h]
    refine ⟨le_max_left 0 _, fun h0 => absurd (by simp [h0]) h⟩

/-- Positions selected by the mask pair up across two selections with
the same mask: selecting then zipping equals zipping then selecting
(needed because `mse_loss` zips the two selected lists). -/
theorem whereMask_nil (m : List Bool) : whereMask m [] = [] := by
  cases m <;> rfl

theorem whereMask_cons (b : Bool) (m : List Bool) (x : Val) (xs : List Val) :
    whereMask (b :: m) (x :: xs) = (if b then x else some 0) :: whereMask m xs := rfl

/-- A NaN sitting in the prediction at a mask-true position survives
masking, substitution and selection, and lands in the squared-error
list that `mse_loss` averages. -/
theorem none_mem_selected :
    ∀ (i : ℕ) (p y : List Val), p[i]? = some none → (∃ a : ℚ, y[i]? = some (some a)) →
      none ∈ boolSelect (maskOf y)
        (List.zipWith sqErr (whereMask (maskOf y) p) (whereMask (maskOf y) y))
  | _, [], _, hp, _ => by simp at hp
  | _, _ :: _, [], _, hy => by simp at hy
  | 0, w :: p, v :: y, hp, hy => by
    obtain ⟨a, ha⟩ := hy
    simp only [List.getElem?_cons_zero, Option.some.injEq] at hp ha
    subst hp ha
    simp [maskOf_cons, whereMask_cons, boolSelect_cons, sqErr, vSub, vMul]
  | (i + 1), w :: p, v :: y, hp, hy => by
    simp only [List.getElem?_cons_succ] at hp hy
    have ih := none_mem_selected i p y hp hy
    rcases Bool.eq_false_or_eq_true v.isSome with hv | hv <;>
      simp [maskOf_cons, whereMask_cons, boolSelect_cons, hv] <;>
      [exact Or.inr ih; exact ih]

/-- C10: zero-substitution touches only positions where `y` is NaN; a
NaN in `y_hat` at a position where `y` is valid is selected into the
mean-squared-error reduction, so (whenever `forward` returns, i.e.
both auxiliary weights are off) `mse_loss` and `total_loss` come back
NaN and no error is raised. -/
theorem forward_nan_pred_gives_nan (cfg : ngenLoss) (p y : List Val) (i : ℕ)
    (hv : cfg.variogram_weight ≤ 0) (hf : cfg.fdc_weight ≤ 0)
    (hp : p[i]? = some none) (hy : ∃ a : ℚ, y[i]? = some (some a)) :
    forward cfg p y = Except.ok (none, [("mse_loss", none), ("total_loss", none)]) := by
  have hmem := none_mem_selected i p y hp hy
  have hmse : mse_loss (boolSelect (maskOf y) (whereMask (maskOf y) p))
      (boolSelect (maskOf y) (whereMask (maskOf y) y)) = none := by
    unfold mse_loss
    rw [zipWith_boolSelect]
    exact vMean_of_mem_none hmem
  simp only [forward, forwardMasked, hmse]
  rw [if_neg (not_lt.mpr hv), if_neg (not_lt.mpr hf)]

theorem forward_nan_pred_gives_nan_witness :
    forward {} [some 2, none] [some 7, some 1] =
      Except.ok (none, [("mse_loss", none), ("total_loss", none)]) :=
  forward_nan_pred_gives_nan {} [some 2, none] [some 7, some 1] 1
    le_rfl le_rfl rfl ⟨1, rfl⟩

/-- Zero-substituted predictions agree whenever the raw predictions
agree at every position where the observation is valid. -/
theorem whereMask_congr :
    ∀ (y p1 p2 : List Val), p1.length = p2.length →
      (∀ i : ℕ, (∃ a : ℚ, y[i]? = some (some a)) → p1[i]? = p2[i]?) →
      whereMask (maskOf y) p1 = whereMask (maskOf y) p2
  | [], _, _, _, _ => rfl
  | v :: y, [], p2, hl, _ => by
    obtain rfl : p2 = [] := List.length_eq_zero.mp hl.symm
    rfl
  | v :: y, p1, [], hl, _ => by
    obtain rfl : p1 = [] := List.length_eq_zero.mp hl
    rfl
  | v :: y, a :: p1, b :: p2, hl, hag => by
    have hl' : p1.length = p2.length := by simpa using hl
    have htail := whereMask_congr y p1 p2 hl' (fun i hi => by
      have := hag (i + 1) (by simpa using hi)
      simpa using this)
    cases hv : v with
    | none => simp [maskOf_cons, whereMask_cons, htail]
    | some c =>
      have hhead : a = b := by
        have := hag 0 ⟨c, by simp [hv]⟩
        simpa using this
      simp [maskOf_cons, whereMask_cons, htail, hhead]

/-- C5: two-run property — the validity mask is a function of `y`
alone, and positions of `y_hat` that the mask excludes cannot influence
the result: two predictions that agree wherever `y` is valid make
`forward` produce identical output (in particular the same
`mse_loss`). -/
theorem forward_mask_from_y_only (cfg : ngenLoss) (p1 p2 y : List Val)
    (hlen : p1.length = p2.length)
    (hagree : ∀ i : ℕ, (∃ a : ℚ, y[i]? = some (some a)) → p1[i]? = p2[i]?) :
    forward cfg p1 y = forward cfg p2 y := by
  simp only [forward]
  rw [whereMask_congr y p1 p2 hlen hagree]

theorem forward_mask_from_y_only_witness :
    forward {} [some 1, some 5] [some 2, none] =
      forward {} [some 1, some 7] [some 2, none] :=
  forward_mask_from_y_only {} [some 1, some 5] [some 1, some 7] [some 2, none] rfl
    (fun i hi => by
      match i, hi with
      | 0, _ => rfl
      | 1, ⟨a, ha⟩ => simp at ha
      | (n + 2), ⟨a, ha⟩ => simp at ha)

/-! ### Sorting facts -/

/-- Sorting two lists with the same multiset of entries gives the same
list: the FDC curves depend only on the pooled values, not their order. -/
theorem sortDesc_eq_of_perm {l1 l2 : List ℚ} (h : l1.Perm l2) : sortDesc l1 = sortDesc l2 :=
  List.eq_of_perm_of_sorted
    ((List.perm_insertionSort _ l1).trans (h.trans (List.perm_insertionSort _ l2).symm))
    (List.sorted_insertionSort _ l1) (List.sorted_insertionSort _ l2)

/-- C7: whenever the valid (mask-selected) entries of `y_hat` are a
rearrangement of the valid entries of `y` — across time and sites —
the FDC divergence is exactly 0: both sorted curves coincide, so the
cross term equals each within term and the clamped difference vanishes. -/
theorem fdc_loss_perm_zero (y_hat y : List ℚ) (mask : List Bool)
    (h : (boolSelect mask y_hat).Perm (boolSelect mask y)) :
    fdc_loss y_hat y mask = 0 := by
  simp only [fdc_loss]
  by_cases he : (boolSelect mask y).isEmpty
  · simp [he]
  · have hs : sortDesc (boolSelect mask y_hat) = sortDesc (boolSelect mask y) :=
      sortDesc_eq_of_perm h
    rw [if_neg he, hs, min_self, List.take_length]
    have hzero : ∀ w : ℚ, max 0 (w - 1 / 2 * (w + w)) = 0 := fun w => by
      rw [show w - 1 / 2 * (w + w) = 0 by ring, max_self]
    exact hzero _

theorem fdc_loss_perm_zero_witness : fdc_loss [1, 2] [2, 1] [true, true] = 0 :=
  fdc_loss_perm_zero [1, 2] [2, 1] [true, true] (List.Perm.swap 2 1 [])

/-! ### Variogram and quantile-index facts -/

/-- C3 counterexample: at the explicit identical-input pair
`y_hat = y = yPair` (B=2, T=2, D=1), the variogram term does not
return 0 — it returns no value at all: the bound `self.var_hyd_char`
call at loss.py line 95 raises `TypeError` before `diff_obs` or
`diff_pred` could be computed, let alone compared. -/
theorem variogram_loss_identical_input_raises :
    variogram_loss { variogram_weight := 1 } yPair yPair [true, true, true, true] =
      Except.error (PyError.typeError
        "TypeError: got multiple values for argument method") := rfl

/-- C3 amended: for every configuration, every pair of arrays — in
particular `y_hat` equal to `y` at every position — and every mask,
the variogram term returns no number: each invocation fails with the
`TypeError` of its first `self.var_hyd_char` call (`var_hyd_char` has
no `self` parameter, so `method` receives both the tensor and the
keyword argument), before the difference matrices `diff_obs` and
`diff_pred` are computed. -/
theorem variogram_loss_always_type_error (cfg : ngenLoss) (y_hat y : Tensor3)
    (mask : List Bool) :
    variogram_loss cfg y_hat y mask =
      Except.error (PyError.typeError
        "TypeError: got multiple values for argument method") := rfl

/-- Truncation toward zero agrees with the floor on the non-negative
index products the quantile branch produces. -/
theorem pyInt_eq_floor {x : ℚ} (hx : 0 ≤ x) : pyInt x = ⌊x⌋ := if_pos hx

/-- C4 amended: for every rank-3 array and every quantile level
`q ∈ [0, 1]`, the quantile method sorts the time axis descending and
picks the entry at index `clamp(⌊q × T⌋, 0, T−1)` — nearest-rank by
*truncation* (floor), not interpolation and not rounding. -/
theorem var_hyd_char_quantile_floor (ts : Tensor3) (q : ℚ) (d : ℚ)
    (h0 : 0 ≤ q) (h1 : q ≤ 1) :
    var_hyd_char ts "quantile" q false d =
      Except.ok ((specQuantileFloor ts q).map (fun row => row.map RedVal.rat)) := by
  have hstep : var_hyd_char ts "quantile" q false d =
      Except.ok ((quantileDim1 ts q).map (fun row => row.map RedVal.rat)) := rfl
  have hfloor : pyInt (q * (shape1 ts : ℚ)) = ⌊q * (shape1 ts : ℚ)⌋ :=
    pyInt_eq_floor (mul_nonneg h0 (Nat.cast_nonneg _))
  have hidx : quantileIndex q (shape1 ts) =
      (max 0 (min ⌊q * (shape1 ts : ℚ)⌋ ((shape1 ts : ℤ) - 1))).toNat := by
    rw [quantileIndex, clampIdx, hfloor]
  rw [hstep]
  simp only [quantileDim1, specQuantileFloor, hidx]

theorem var_hyd_char_quantile_floor_witness :
    var_hyd_char ts4 "quantile" (13/50) false 0 =
      Except.ok ((specQuantileFloor ts4 (13/50)).map (fun row => row.map RedVal.rat)) :=
  var_hyd_char_quantile_floor ts4 (13/50) 0 (by norm_num) (by norm_num)

/-- C4 counterexample: at `ts4` (T = 10, series 0..9) with
`q = 0.26`, the code computes `int(0.26 × 10) = 2` and returns the
descending-sorted entry `7`, while the spec's formula
`clamp(round(0.26 × 10), 0, 9) = 3` would return `6`. -/
theorem var_hyd_char_quantile_round_counterexample :
    var_hyd_char ts4 "quantile" (13/50) false 0 = Except.ok [[RedVal.rat 7]] ∧
      specQuantileRound ts4 (13/50) = [[6]] ∧ (7 : ℚ) ≠ 6 := by
  refine ⟨?_, ?_, by norm_num⟩
  · have h7 : quantileDim1 ts4 (13/50) = [[7]] := by
      norm_num [quantileDim1, colsOf, shape1, sortDesc, quantileIndex, clampIdx, pyInt, ts4,
        List.range_succ, List.range_zero, List.insertionSort, List.orderedInsert]
      rfl
    have hstep : var_hyd_char ts4 "quantile" (13/50) false 0 =
        Except.ok ((quantileDim1 ts4 (13/50)).map (fun row => row.map RedVal.rat)) := rfl
    rw [hstep, h7]
    rfl
  · norm_num [specQuantileRound, colsOf, shape1, sortDesc, ts4, round_eq,
      List.range_succ, List.range_zero, List.insertionSort, List.orderedInsert]
    rfl

end Ngen
